import Mathlib

/-!
# doormanlb — verification of the request-coordination engine

Shallow embedding of the doormanlb reverse proxy (Go sources under
`internal/config`, `internal/keybuilder`, `internal/service`,
`internal/http`, `internal/routing`) together with theorems settling the
frozen claims about the specification.

Conventions of the embedding:
* Go `time.Duration` (an `int64` of nanoseconds) is modelled as `Int`.
* Go maps used by the configuration are modelled as association lists;
  `map[k]` with a missing key yields the zero value, modelled with
  `Option.getD`.
* Errors are modelled by explicit result inductives; the engine's calls
  into the coordination store, the upstream fetcher and the backoff sleep
  are resolved by a per-call oracle recording what the outside world
  answered, and the engine emits an explicit trace of the operations it
  performed.
-/

namespace Doorman

/-! ## Configuration (`internal/config/config.go`) -/

def strategyRoundRobin : String := "ROUND_ROBIN"
def strategyLeastConnections : String := "LEAST_CONNECTIONS"
def cacheBehaviorCache : String := "CACHE"
def cacheBehaviorPassthrough : String := "PASSTHROUGH"
def defaultEndpointKey : String := "DEFAULT"
def adminPathPrefix : String := "/__doormanlb/"

/-- `EndpointConfig`: `expireTimeout` in milliseconds, `cacheBehavior`,
and an optional `ignoreParameters` (`*bool` in Go). -/
structure EndpointConfig where
  expireTimeout : Int
  cacheBehavior : String
  ignoreParameters : Option Bool
deriving Repr, DecidableEq

/-- `Config`: upstream service URLs, strategy name, endpoint table.
The Go `map[string]EndpointConfig` is an association list here. -/
structure Config where
  services : List String
  strategy : String
  endpoints : List (String × EndpointConfig)
deriving Repr, DecidableEq

/-- Zero value of `EndpointConfig`, what a Go map lookup yields on a
missing key. -/
def zeroEndpoint : EndpointConfig := ⟨0, "", none⟩

/-- `strings.TrimSpace(s) == ""`: the string has no non-whitespace
character.  (Stated on the character list so it evaluates.) -/
def isBlank (s : String) : Bool := s.data.all Char.isWhitespace

/-- `strings.HasPrefix(s, pre)`, on the character lists. -/
def hasPrefix (pre s : String) : Bool := pre.data.isPrefixOf s.data

/-- `validateEndpoint`: rejects negative `expireTimeout`; a non-empty
`cacheBehavior` must be CACHE or PASSTHROUGH; an empty one is an error
only when `requireBehavior`. Returns `true` for "no error". -/
def validateEndpoint (e : EndpointConfig) (requireBehavior : Bool) : Bool :=
  if e.expireTimeout < 0 then false
  else if e.cacheBehavior ≠ "" then
    decide (e.cacheBehavior = cacheBehaviorCache ∨ e.cacheBehavior = cacheBehaviorPassthrough)
  else !requireBehavior

/-- `Config.Validate`: services non-empty and non-blank, known strategy,
`DEFAULT` present and valid with a required behavior, every other entry
non-empty, outside the reserved admin prefix, and valid.
Returns `true` for "no error".  (The Go `c.Endpoints == nil` check and the
missing-`DEFAULT` check both fail an empty table here.) -/
def Config.validate (c : Config) : Bool :=
  if c.services.isEmpty then false
  else if c.services.any (fun s => isBlank s) then false
  else if c.strategy = "" then false
  else if ¬ (c.strategy = strategyRoundRobin ∨ c.strategy = strategyLeastConnections) then false
  else
    match c.endpoints.lookup defaultEndpointKey with
    | none => false
    | some dft =>
      validateEndpoint dft true &&
      c.endpoints.all (fun kv =>
        if kv.1 = defaultEndpointKey then true
        else if kv.1 = "" then false
        else if hasPrefix adminPathPrefix kv.1 then false
        else validateEndpoint kv.2 false)

/-- `Config.Endpoint`: the merged view of `DEFAULT` with the path-exact
override; only a positive `expireTimeout`, a non-empty `cacheBehavior`
and a present `ignoreParameters` replace the default. -/
def Config.endpoint (c : Config) (path : String) : EndpointConfig :=
  let defaultCfg := (c.endpoints.lookup defaultEndpointKey).getD zeroEndpoint
  match c.endpoints.lookup path with
  | none => defaultCfg
  | some override =>
    { expireTimeout := if override.expireTimeout > 0 then override.expireTimeout
                       else defaultCfg.expireTimeout
      cacheBehavior := if override.cacheBehavior ≠ "" then override.cacheBehavior
                       else defaultCfg.cacheBehavior
      ignoreParameters := if override.ignoreParameters.isSome then override.ignoreParameters
                          else defaultCfg.ignoreParameters }

/-- `Config.UsesCache`: true iff the `DEFAULT` entry or any other declared
entry has behavior CACHE. -/
def Config.usesCache (c : Config) : Bool :=
  if ((c.endpoints.lookup defaultEndpointKey).getD zeroEndpoint).cacheBehavior
      = cacheBehaviorCache then true
  else c.endpoints.any (fun kv =>
    kv.1 ≠ defaultEndpointKey && kv.2.cacheBehavior = cacheBehaviorCache)

/-- `EndpointConfig.ShouldIgnoreParameters`. -/
def EndpointConfig.shouldIgnoreParameters (e : EndpointConfig) : Bool :=
  e.ignoreParameters.getD false

/-- `EndpointConfig.CacheTTL`: `expireTimeout` milliseconds as a
nanosecond `time.Duration`. -/
def EndpointConfig.cacheTTL (e : EndpointConfig) : Int :=
  e.expireTimeout * 1000000

/-! ## SHA-256 (`crypto/sha256`), on `Nat` bytes and 32-bit words -/

/-- Truncate to a 32-bit word. -/
def w32 (x : Nat) : Nat := x % 4294967296

/-- 32-bit right rotation. -/
def rotr32 (n x : Nat) : Nat := w32 ((x >>> n) ||| (x <<< (32 - n)))

def shaCh (x y z : Nat) : Nat := (x &&& y) ^^^ ((x ^^^ 4294967295) &&& z)
def shaMaj (x y z : Nat) : Nat := (x &&& y) ^^^ (x &&& z) ^^^ (y &&& z)
def bsig0 (x : Nat) : Nat := rotr32 2 x ^^^ rotr32 13 x ^^^ rotr32 22 x
def bsig1 (x : Nat) : Nat := rotr32 6 x ^^^ rotr32 11 x ^^^ rotr32 25 x
def ssig0 (x : Nat) : Nat := rotr32 7 x ^^^ rotr32 18 x ^^^ (x >>> 3)
def ssig1 (x : Nat) : Nat := rotr32 17 x ^^^ rotr32 19 x ^^^ (x >>> 10)

/-- SHA-256 round constants (FIPS 180-4), as decimal `Nat` values. -/
def shaK : Array Nat := #[
  1116352408, 1899447441, 3049323471, 3921009573, 961987163,
  1508970993, 2453635748, 2870763221, 3624381080, 310598401,
  607225278, 1426881987, 1925078388, 2162078206, 2614888103,
  3248222580, 3835390401, 4022224774, 264347078, 604807628,
  770255983, 1249150122, 1555081692, 1996064986, 2554220882,
  2821834349, 2952996808, 3210313671, 3336571891, 3584528711,
  113926993, 338241895, 666307205, 773529912, 1294757372,
  1396182291, 1695183700, 1986661051, 2177026350, 2456956037,
  2730485921, 2820302411, 3259730800, 3345764771, 3516065817,
  3600352804, 4094571909, 275423344, 430227734, 506948616,
  659060556, 883997877, 958139571, 1322822218, 1537002063,
  1747873779, 1955562222, 2024104815, 2227730452, 2361852424,
  2428436474, 2756734187, 3204031479, 3329325298]

/-- SHA-256 initial hash value, as decimal `Nat` values. -/
def shaH0 : List Nat := [
  1779033703, 3144134277, 1013904242, 2773480762, 1359893119,
  2600822924, 528734635, 1541459225]

/-- Big-endian 32-bit word at index `i` of a 64-byte block. -/
def beWord (block : List Nat) (i : Nat) : Nat :=
  block.getD (4 * i) 0 * 16777216 + block.getD (4 * i + 1) 0 * 65536 +
    block.getD (4 * i + 2) 0 * 256 + block.getD (4 * i + 3) 0

/-- Message schedule: 16 block words extended to 64. -/
def shaSchedule (block : List Nat) : Array Nat :=
  let w0 : Array Nat := (Array.range 16).map (beWord block)
  (List.range 48).foldl
    (fun w i =>
      let j := i + 16
      w.push (w32 (ssig1 (w.getD (j - 2) 0) + w.getD (j - 7) 0 +
        ssig0 (w.getD (j - 15) 0) + w.getD (j - 16) 0)))
    w0

structure ShaState where
  a : Nat
  b : Nat
  c : Nat
  d : Nat
  e : Nat
  f : Nat
  g : Nat
  h : Nat

/-- One SHA-256 compression round. -/
def shaRound (k wi : Nat) (s : ShaState) : ShaState :=
  let t1 := w32 (s.h + bsig1 s.e + shaCh s.e s.f s.g + k + wi)
  let t2 := w32 (bsig0 s.a + shaMaj s.a s.b s.c)
  ⟨w32 (t1 + t2), s.a, s.b, s.c, w32 (s.d + t1), s.e, s.f, s.g⟩

/-- Compress one 64-byte block into the running hash (8 words). -/
def shaCompress (hs : List Nat) (block : List Nat) : List Nat :=
  let w := shaSchedule block
  let s0 : ShaState := ⟨hs.getD 0 0, hs.getD 1 0, hs.getD 2 0, hs.getD 3 0,
    hs.getD 4 0, hs.getD 5 0, hs.getD 6 0, hs.getD 7 0⟩
  let s := (List.range 64).foldl (fun s i => shaRound (shaK.getD i 0) (w.getD i 0) s) s0
  [w32 (hs.getD 0 0 + s.a), w32 (hs.getD 1 0 + s.b), w32 (hs.getD 2 0 + s.c),
   w32 (hs.getD 3 0 + s.d), w32 (hs.getD 4 0 + s.e), w32 (hs.getD 5 0 + s.f),
   w32 (hs.getD 6 0 + s.g), w32 (hs.getD 7 0 + s.h)]

/-- Split a byte list into 64-byte chunks. -/
def chunks64 (bs : List Nat) : List (List Nat) :=
  match bs with
  | [] => []
  | b :: rest => ((b :: rest).take 64) :: chunks64 (rest.drop 63)
termination_by bs.length
decreasing_by simp [List.length_drop]; omega

/-- Big-endian 8-byte encoding of a length in bits. -/
def beBytes8 (n : Nat) : List Nat :=
  (List.range 8).map (fun i => (n >>> (8 * (7 - i))) % 256)

/-- SHA-256 padding: `0x80`, zeros to 56 mod 64, 8-byte bit length. -/
def shaPad (msg : List Nat) : List Nat :=
  let L := msg.length
  let k := (119 - L % 64) % 64
  msg ++ [0x80] ++ List.replicate k 0 ++ beBytes8 (8 * L)

/-- SHA-256 digest of a byte list, as 32 bytes. -/
def sha256 (msg : List Nat) : List Nat :=
  let hs := (chunks64 (shaPad msg)).foldl shaCompress shaH0
  hs.flatMap (fun w => [(w >>> 24) % 256, (w >>> 16) % 256, (w >>> 8) % 256, w % 256])

def hexDigitLower (n : Nat) : Char :=
  if n < 10 then Char.ofNat (48 + n) else Char.ofNat (87 + n)

def hexDigitUpper (n : Nat) : Char :=
  if n < 10 then Char.ofNat (48 + n) else Char.ofNat (55 + n)

/-- `hex.EncodeToString`: lowercase hex of a byte list. -/
def hexEncode (bs : List Nat) : String :=
  String.join (bs.map (fun b => String.mk [hexDigitLower (b / 16), hexDigitLower (b % 16)]))

/-- UTF-8 encoding of one character, as byte values. -/
def utf8Bytes (c : Char) : List Nat :=
  let n := c.toNat
  if n < 0x80 then [n]
  else if n < 0x800 then [0xc0 ||| (n >>> 6), 0x80 ||| (n % 64)]
  else if n < 0x10000 then
    [0xe0 ||| (n >>> 12), 0x80 ||| ((n >>> 6) % 64), 0x80 ||| (n % 64)]
  else
    [0xf0 ||| (n >>> 18), 0x80 ||| ((n >>> 12) % 64), 0x80 ||| ((n >>> 6) % 64), 0x80 ||| (n % 64)]

/-- The UTF-8 bytes of a string (Go strings are byte strings in UTF-8). -/
def stringBytes (s : String) : List Nat := s.data.flatMap utf8Bytes

/-- `sha256.Sum256` followed by `hex.EncodeToString`. -/
def sha256Hex (s : String) : String := hexEncode (sha256 (stringBytes s))

/-! ## Fingerprint builder (`internal/keybuilder`) -/

/-- `url.QueryEscape` on one byte: alphanumerics and `-_.~` are kept,
space becomes `+`, anything else `%XX` with uppercase hex. -/
def queryEscapeByte (b : Nat) : String :=
  if (65 ≤ b && b ≤ 90) || (97 ≤ b && b ≤ 122) || (48 ≤ b && b ≤ 57) ||
      b = 45 || b = 95 || b = 46 || b = 126 then
    String.mk [Char.ofNat b]
  else if b = 32 then "+"
  else "%" ++ String.mk [hexDigitUpper (b / 16), hexDigitUpper (b % 16)]

/-- `url.QueryEscape`. -/
def queryEscape (s : String) : String :=
  String.join ((stringBytes s).map queryEscapeByte)

/-- A request's query in arrival order, as key-value pairs; this is the
information content of `request.URL.Query()` (`url.Values`). -/
abbrev Query := List (String × String)

/-- The distinct keys of the query, as Go's `for key := range values`
enumerates them (each key once; order irrelevant, they get sorted). -/
def queryKeys (q : Query) : List String := (q.map Prod.fst).dedup

/-- `values[key]`: the values listed under a key, in arrival order. -/
def queryValuesOf (q : Query) (k : String) : List String :=
  q.filterMap (fun p => if p.1 = k then some p.2 else none)

/-- `normalizeQuery`: keys sorted, values within a key sorted, both
percent-encoded, joined `k=v&…`. -/
def normalizeQuery (q : Query) : String :=
  if q.isEmpty then ""
  else
    let keys := (queryKeys q).mergeSort (fun a b => decide (a ≤ b))
    let parts := keys.flatMap (fun k =>
      ((queryValuesOf q k).mergeSort (fun a b => decide (a ≤ b))).map
        (fun v => queryEscape k ++ "=" ++ queryEscape v))
    String.intercalate "&" parts

/-- The path and query of a non-nil request, as `keybuilder.Build`
consumes them. -/
structure KeyRequest where
  path : String
  query : Query

/-- `keybuilder.Options`. -/
structure KeyOptions where
  ignoreParameters : Bool

/-- The string `Build` hashes: the path, then `?` and the normalized
query when parameters are not ignored and the normalization is
non-empty. -/
def keyString (r : KeyRequest) (o : KeyOptions) : String :=
  r.path ++
    (if !o.ignoreParameters then
      let normalized := normalizeQuery r.query
      if normalized ≠ "" then "?" ++ normalized else ""
    else "")

/-- `keybuilder.Build`: the nil request (or nil URL) yields `""`,
otherwise the lowercase-hex SHA-256 of `keyString`. -/
def build : Option KeyRequest → KeyOptions → String
  | none, _ => ""
  | some r, o => sha256Hex (keyString r o)

/-! ## Leader lock TTL (`internal/service/request_service.go`) -/

def defaultLeaderLockTTL : Int := 15 * 1000000000
def maxLeaderLockTTL : Int := 30 * 1000000000
def maxCacheAttempts : Nat := 3

/-- `leaderLockTTL`: derives the leader lock TTL from the endpoint cache
TTL, exactly as the source's chain of comparisons. -/
def leaderLockTTL (cacheTTL : Int) : Int :=
  if cacheTTL ≤ 0 then defaultLeaderLockTTL
  else if cacheTTL < defaultLeaderLockTTL then defaultLeaderLockTTL
  else if cacheTTL > maxLeaderLockTTL then maxLeaderLockTTL
  else cacheTTL

/-- `shouldCache`: a response is cacheable iff its status code is below
`http.StatusInternalServerError` (500). -/
def shouldCache (statusCode : Int) : Bool :=
  statusCode < 500

/-! ## Coordination engine (`internal/service/request_service.go`)

`Handle` is modelled as a deterministic interpreter: the answers of the
coordination store, the upstream fetcher and the backoff sleep during one
call are recorded in a `CallOracle` (indexed by the attempt number where
the call site sits inside the retry loop), and the interpreter returns
the updated metrics, the trace of operations performed (in program
order), and the call's outcome.  All store operations of one call target
the single fingerprint key built before the loop, so the trace does not
repeat the key. -/

/-- `proxy.Response`. -/
structure Resp where
  statusCode : Int
  header : List (String × List String)
  body : List Nat
deriving Repr, DecidableEq

/-- The context a cleanup call runs under: the inbound request context,
or a fresh `context.WithTimeout(context.Background(), n seconds)`. -/
inductive CtxKind
  | inbound
  | freshTimeout (seconds : Nat)
deriving Repr, DecidableEq

/-- One observable operation of the engine. -/
inductive Op
  | cacheGet
  | cacheSet (r : Resp) (ttl : Int)
  | tryAcquireLeader (lockTTL : Int)
  | waitForDone (lockTTL : Int)
  | publishDone (ctx : CtxKind)
  | releaseLeader (ctx : CtxKind)
  | leaseAcquire
  | leaseRelease
  | upstreamFetch
  | writeResponse (r : Resp)
  | backoffSleep (ms : Nat)
deriving Repr, DecidableEq

/-- Coordination-store operations, for frame conditions. -/
def Op.isStoreOp : Op → Bool
  | .cacheGet => true
  | .cacheSet _ _ => true
  | .tryAcquireLeader _ => true
  | .waitForDone _ => true
  | .publishDone _ => true
  | .releaseLeader _ => true
  | _ => false

/-- `serviceMetrics`: the eleven counters. -/
structure Metrics where
  requestsTotal : Nat
  cacheHits : Nat
  cacheMisses : Nat
  leaderAcquired : Nat
  followerWaits : Nat
  upstreamFetches : Nat
  cacheSets : Nat
  cacheSkips5xx : Nat
  cacheOperationError : Nat
  followerTimeouts : Nat
  fallbackFetches : Nat
deriving Repr, DecidableEq

def Metrics.zero : Metrics := ⟨0, 0, 0, 0, 0, 0, 0, 0, 0, 0, 0⟩

/-- Result of `cache.Get`. -/
inductive GetResult
  | failure
  | missing
  | found (r : Resp)
deriving Repr, DecidableEq

/-- Result of `cache.TryAcquireLeader`. -/
inductive AcqResult
  | failure
  | acquired
  | notAcquired
deriving Repr, DecidableEq

/-- Result of `cache.WaitForDone`. -/
inductive WaitResult
  | failure
  | completed
  | timedOut
deriving Repr, DecidableEq

/-- Result of `proxy.Fetch`. -/
inductive FetchResult
  | failure
  | fetched (r : Resp)
deriving Repr, DecidableEq

/-- What the outside world answers during one `Handle` call.  `Get`,
`TryAcquireLeader`, `WaitForDone` and the backoff sleep are indexed by
the attempt on which they run; at most one fetch and one `Set` happen
per call. -/
structure CallOracle where
  getResult : Nat → GetResult
  acquireResult : Nat → AcqResult
  waitResult : Nat → WaitResult
  sleepCompletes : Nat → Bool
  fetchResult : FetchResult
  setSucceeds : Bool

/-- The error a `Handle` call can return, by origin. -/
inductive EngineError
  | unsupportedBehavior
  | missingStore
  | getFailed
  | acquireFailed
  | waitFailed
  | sleepCancelled
  | fetchFailed
deriving Repr, DecidableEq

/-- Result of one `Handle` call: metrics after the call, trace of
operations in program order, and `none` when the call succeeded. -/
structure CallOut where
  metrics : Metrics
  ops : List Op
  outcome : Option EngineError
deriving Repr, DecidableEq

/-- The `CachingService`: its validated configuration and whether a
coordination store is attached (`s.cache != nil`). -/
structure ServiceModel where
  config : Config
  hasStore : Bool

/-- `fetchFromUpstream`: counts the fetch, acquires a router lease,
fetches, and releases the lease (deferred, so before the caller goes
on). -/
def fetchFromUpstream (o : CallOracle) (m : Metrics) : Metrics × List Op × FetchResult :=
  ({ m with upstreamFetches := m.upstreamFetches + 1 },
   [.leaseAcquire, .upstreamFetch, .leaseRelease], o.fetchResult)

/-- `fetchAndWrite`: fetch, then write the response on success. -/
def fetchAndWrite (o : CallOracle) (m : Metrics) : CallOut :=
  let (m', ops, fr) := fetchFromUpstream o m
  match fr with
  | .failure => ⟨m', ops, some .fetchFailed⟩
  | .fetched r => ⟨m', ops ++ [.writeResponse r], none⟩

/-- The deferred leader cleanup: `PublishDone` then `ReleaseLeader`,
both under a fresh 2-second context, run at every exit of
`handleAsLeader` (so after the write, or after the failed fetch). -/
def cleanupOps : List Op :=
  [.publishDone (.freshTimeout 2), .releaseLeader (.freshTimeout 2)]

/-- `handleAsLeader`: fetch; on success store when `shouldCache` (a
failed `Set` is best-effort and only counted), else count the 5xx skip;
write the response; the deferred cleanup runs on every exit. -/
def handleAsLeader (o : CallOracle) (ttl : Int) (m : Metrics) : CallOut :=
  let (m', fetchOps, fr) := fetchFromUpstream o m
  match fr with
  | .failure => ⟨m', fetchOps ++ cleanupOps, some .fetchFailed⟩
  | .fetched r =>
    if shouldCache r.statusCode then
      if o.setSucceeds then
        ⟨{ m' with cacheSets := m'.cacheSets + 1 },
         fetchOps ++ [.cacheSet r ttl, .writeResponse r] ++ cleanupOps, none⟩
      else
        ⟨{ m' with cacheOperationError := m'.cacheOperationError + 1 },
         fetchOps ++ [.cacheSet r ttl, .writeResponse r] ++ cleanupOps, none⟩
    else
      ⟨{ m' with cacheSkips5xx := m'.cacheSkips5xx + 1 },
       fetchOps ++ [.writeResponse r] ++ cleanupOps, none⟩

/-- The single-flight retry loop of `handleCache`: cache read, leader
acquisition, leader path or follower wait with backoff, and the
direct-fetch fallback once attempts are exhausted.  The Go
`for attempts := 0; attempts < maxCacheAttempts; attempts++` is compiled
structurally: `fuel` is the number of iterations left
(`maxCacheAttempts - attempt`), `attempt` is the current loop index, the
entry point is `fuel = maxCacheAttempts, attempt = 0`, and the fallback
runs when the budget is exhausted. -/
def handleCacheLoop (o : CallOracle) (ttl lockTTL : Int) :
    Nat → Nat → Metrics → CallOut
  | 0, _, m => fetchAndWrite o { m with fallbackFetches := m.fallbackFetches + 1 }
  | fuel + 1, attempt, m =>
    match o.getResult attempt with
    | .failure =>
      ⟨{ m with cacheOperationError := m.cacheOperationError + 1 }, [.cacheGet], some .getFailed⟩
    | .found r =>
      ⟨{ m with cacheHits := m.cacheHits + 1 }, [.cacheGet, .writeResponse r], none⟩
    | .missing =>
      let m := { m with cacheMisses := m.cacheMisses + 1 }
      match o.acquireResult attempt with
      | .failure =>
        ⟨{ m with cacheOperationError := m.cacheOperationError + 1 },
         [.cacheGet, .tryAcquireLeader lockTTL], some .acquireFailed⟩
      | .acquired =>
        let out := handleAsLeader o ttl { m with leaderAcquired := m.leaderAcquired + 1 }
        ⟨out.metrics, .cacheGet :: .tryAcquireLeader lockTTL :: out.ops, out.outcome⟩
      | .notAcquired =>
        let m := { m with followerWaits := m.followerWaits + 1 }
        let baseOps : List Op := [.cacheGet, .tryAcquireLeader lockTTL, .waitForDone lockTTL]
        match o.waitResult attempt with
        | .failure =>
          ⟨{ m with cacheOperationError := m.cacheOperationError + 1 }, baseOps, some .waitFailed⟩
        | .completed =>
          let out := handleCacheLoop o ttl lockTTL fuel (attempt + 1) m
          ⟨out.metrics, baseOps ++ out.ops, out.outcome⟩
        | .timedOut =>
          let m := { m with followerTimeouts := m.followerTimeouts + 1 }
          if o.sleepCompletes attempt then
            let out := handleCacheLoop o ttl lockTTL fuel (attempt + 1) m
            ⟨out.metrics, baseOps ++ [.backoffSleep ((attempt + 1) * 10)] ++ out.ops, out.outcome⟩
          else
            ⟨m, baseOps ++ [.backoffSleep ((attempt + 1) * 10)], some .sleepCancelled⟩

/-- `handleCache`: requires the store; computes the fingerprint, the
cache TTL and the lock TTL, then runs the loop from attempt 0 with the
full attempt budget. -/
def handleCache (svc : ServiceModel) (o : CallOracle) (e : EndpointConfig) (m : Metrics) : CallOut :=
  if !svc.hasStore then ⟨m, [], some .missingStore⟩
  else handleCacheLoop o e.cacheTTL (leaderLockTTL e.cacheTTL) maxCacheAttempts 0 m

/-- `Handle`: count the request, resolve the endpoint, dispatch on its
behavior. -/
def handle (svc : ServiceModel) (path : String) (o : CallOracle) (m : Metrics) : CallOut :=
  let m := { m with requestsTotal := m.requestsTotal + 1 }
  let endpoint := svc.config.endpoint path
  if endpoint.cacheBehavior = cacheBehaviorPassthrough then fetchAndWrite o m
  else if endpoint.cacheBehavior = cacheBehaviorCache then handleCache svc o endpoint m
  else ⟨m, [], some .unsupportedBehavior⟩

/-- A sequence of `Handle` calls, threading the metrics. -/
def runCalls (svc : ServiceModel) : List (String × CallOracle) → Metrics → Metrics
  | [], m => m
  | (p, o) :: rest, m => runCalls svc rest (handle svc p o m).metrics

/-! ## Readiness (`CachingService.Ready`, `Handler.handleReady`) -/

/-- `Ready`: an error when caching is configured without a store;
otherwise the store's ping result when a store is attached (every
concrete store implements `Ping`, so the Go interface assertion succeeds
exactly when the store is non-nil); otherwise success.  `pingOk` is the
outcome of `Ping` under the handler's 2-second context. -/
def ready (svc : ServiceModel) (pingOk : Bool) : Bool :=
  if svc.config.usesCache && !svc.hasStore then false
  else if svc.hasStore then pingOk
  else true

/-- `handleReady`: `200` with body `ready` on success, else `503` with a
diagnostic. -/
def handleReady (svc : ServiceModel) (pingOk : Bool) : Nat × String :=
  if ready svc pingOk then (200, "ready") else (503, "not ready")

/-! ## Interleaved single-flight protocol (healthy store)

Concurrent `Handle` calls for one fingerprint, as an interleaving of
per-handler steps over the shared coordination store.  The store is
healthy: no operation errors, no key expires within the execution (one
cache TTL), `WaitForDone` never times out, and a follower's subscription
epoch is taken synchronously at subscribe time, so a wait completes
exactly when a later publish arrives.  Each handler runs `handleCache`'s
loop; `fetchOk i` tells whether handler `i`'s upstream fetch returns a
cacheable (status `< 500`) response — when not, the leader skips the
store, exactly as `handleAsLeader` does. -/

namespace SingleFlight

/-- Where a handler stands inside `handleCache`. -/
inductive PC
  | atGet (attempt : Nat)
  | atAcquire (attempt : Nat)
  | leaderFetch
  | leaderSet
  | leaderPublish
  | leaderRelease
  | waiting (attempt : Nat) (epoch : Nat)
  | fallbackFetch
  | finished
deriving Repr, DecidableEq

/-- Shared store plus the handlers: per-handler program counter and
fetch count, whether the response is cached, the lock holder, and how
many `done` notifications have been published. -/
structure HState where
  pc : Nat → PC
  fetches : Nat → Nat
  cached : Bool
  lockHolder : Option Nat
  doneEpoch : Nat

/-- All handlers about to do their first cache read; nothing cached. -/
def init : HState := ⟨fun _ => .atGet 0, fun _ => 0, false, none, 0⟩

/-- One atomic step of handler `i` against the healthy store.  A handler
whose next operation is blocked (a waiting follower with no fresh
notification) or that has finished stutters. -/
def step (fetchOk : Nat → Bool) (s : HState) (i : Nat) : HState :=
  match s.pc i with
  | .atGet a =>
    if s.cached then { s with pc := Function.update s.pc i .finished }
    else { s with pc := Function.update s.pc i (.atAcquire a) }
  | .atAcquire a =>
    match s.lockHolder with
    | none => { s with pc := Function.update s.pc i .leaderFetch, lockHolder := some i }
    | some _ => { s with pc := Function.update s.pc i (.waiting a s.doneEpoch) }
  | .leaderFetch =>
    let s' := { s with fetches := Function.update s.fetches i (s.fetches i + 1) }
    if fetchOk i then { s' with pc := Function.update s'.pc i .leaderSet }
    else { s' with pc := Function.update s'.pc i .leaderPublish }
  | .leaderSet =>
    { s with cached := true, pc := Function.update s.pc i .leaderPublish }
  | .leaderPublish =>
    { s with doneEpoch := s.doneEpoch + 1, pc := Function.update s.pc i .leaderRelease }
  | .leaderRelease =>
    { s with lockHolder := if s.lockHolder = some i then none else s.lockHolder,
             pc := Function.update s.pc i .finished }
  | .waiting a e =>
    if e < s.doneEpoch then
      if a + 1 < maxCacheAttempts then { s with pc := Function.update s.pc i (.atGet (a + 1)) }
      else { s with pc := Function.update s.pc i .fallbackFetch }
    else s
  | .fallbackFetch =>
    { s with fetches := Function.update s.fetches i (s.fetches i + 1),
             pc := Function.update s.pc i .finished }
  | .finished => s

/-- Run a schedule (the sequence of handler ids taking steps). -/
def run (fetchOk : Nat → Bool) (sched : List Nat) : HState :=
  sched.foldl (step fetchOk) init

/-- The states between a successful `TryAcquireLeader` and the
corresponding release: the handler holds the lock and (at `leaderFetch`)
has its upstream build in flight. -/
def inLeaderRegion : PC → Bool
  | .leaderFetch => true
  | .leaderSet => true
  | .leaderPublish => true
  | .leaderRelease => true
  | _ => false

/-- States a handler can only be in before performing its (unique)
upstream fetch. -/
def preFetch : PC → Bool
  | .atGet _ => true
  | .atAcquire _ => true
  | .waiting _ _ => true
  | .leaderFetch => true
  | .fallbackFetch => true
  | _ => false

end SingleFlight

/-! ## Spec-side definitions and concrete inputs -/

/-- The lock-TTL clamp exactly as the claim words it: `defaultLockTTL`
when the cache TTL is `≤ 0` or below `defaultLockTTL`, `maxLockTTL` when
above it, the cache TTL itself otherwise. -/
def lockTTLSpec (t : Int) : Int :=
  if t ≤ 0 ∨ t < defaultLeaderLockTTL then defaultLeaderLockTTL
  else if t > maxLeaderLockTTL then maxLeaderLockTTL
  else t

/-- An oracle under which the loop reaches the leader branch on attempt
`a`: earlier attempts miss, fail to acquire and come back from the wait
(completed, or timed out with the backoff finishing), attempt `a` misses
and acquires. -/
def reachesLeaderAt (o : CallOracle) (a : Nat) : Prop :=
  o.getResult a = .missing ∧ o.acquireResult a = .acquired ∧
    ∀ b, b < a → o.getResult b = .missing ∧ o.acquireResult b = .notAcquired ∧
      (o.waitResult b = .completed ∨
        (o.waitResult b = .timedOut ∧ o.sleepCompletes b = true))

instance (o : CallOracle) (a : Nat) : Decidable (reachesLeaderAt o a) := by
  unfold reachesLeaderAt; infer_instance

def Op.isPublishDone : Op → Bool
  | .publishDone _ => true
  | _ => false

def Op.isReleaseLeader : Op → Bool
  | .releaseLeader _ => true
  | _ => false

/-- A 200 response used for concrete runs. -/
def respOk : Resp := ⟨200, [], [104, 105]⟩

/-- Everything succeeds and attempt 0 takes the leader path. -/
def oracleLeaderOk : CallOracle :=
  ⟨fun _ => .missing, fun _ => .acquired, fun _ => .completed, fun _ => true,
   .fetched respOk, true⟩

/-- Attempt 0 is a follower, its wait completes, attempt 1 leads. -/
def oracleLeaderAtOne : CallOracle :=
  ⟨fun _ => .missing,
   fun a => if a = 0 then .notAcquired else .acquired,
   fun _ => .completed, fun _ => true, .fetched respOk, true⟩

/-- Every attempt misses, never acquires, and the wait always times out:
the call ends in the direct-fetch fallback. -/
def oracleFollowerTimeout : CallOracle :=
  ⟨fun _ => .missing, fun _ => .notAcquired, fun _ => .timedOut, fun _ => true,
   .fetched respOk, true⟩

/-- Attempt 0 misses and `TryAcquireLeader` fails: the call errors. -/
def oracleAcquireFailure : CallOracle :=
  ⟨fun _ => .missing, fun _ => .failure, fun _ => .completed, fun _ => true,
   .fetched respOk, true⟩

/-- Caching configuration: `DEFAULT` is CACHE with a 5000 ms TTL. -/
def cfgCache : Config :=
  ⟨["http://svc-a:8080"], "ROUND_ROBIN", [(defaultEndpointKey, ⟨5000, "CACHE", none⟩)]⟩

/-- Passthrough-only configuration. -/
def cfgPassthrough : Config :=
  ⟨["http://svc-a:8080"], "ROUND_ROBIN", [(defaultEndpointKey, ⟨0, "PASSTHROUGH", none⟩)]⟩

/-- `DEFAULT` is CACHE with `expireTimeout = 0`. -/
def cfgCacheZeroTTL : Config :=
  ⟨["http://svc-a:8080"], "ROUND_ROBIN", [(defaultEndpointKey, ⟨0, "CACHE", none⟩)]⟩

def svcCache : ServiceModel := ⟨cfgCache, true⟩

/-- A service with only PASSTHROUGH endpoints but a coordination store
attached (`REDIS_URL` set without any CACHE endpoint). -/
def svcPassthroughWithStore : ServiceModel := ⟨cfgPassthrough, true⟩

/-- Schedule for two concurrent handlers 0 and 1: handler 1's cache read
lands before leader 0's store, and its lock attempt lands after leader
0's release, so both fetch. -/
def c1Schedule : List Nat := [0, 0, 1, 0, 0, 0, 0, 1, 1]


/-! ## Helper lemmas: one-step unfoldings of the retry loop -/

theorem loop_zero (o : CallOracle) (ttl lockTTL : Int) (attempt : Nat) (m : Metrics) :
    handleCacheLoop o ttl lockTTL 0 attempt m =
      fetchAndWrite o { m with fallbackFetches := m.fallbackFetches + 1 } := rfl

theorem loop_get_failure (o : CallOracle) (ttl lockTTL : Int) (fuel attempt : Nat) (m : Metrics)
    (h2 : o.getResult attempt = .failure) :
    handleCacheLoop o ttl lockTTL (fuel + 1) attempt m =
      ⟨{ m with cacheOperationError := m.cacheOperationError + 1 }, [.cacheGet], some .getFailed⟩ := by
  simp [handleCacheLoop, h2]

theorem loop_get_found (o : CallOracle) (ttl lockTTL : Int) (fuel attempt : Nat) (m : Metrics)
    (r : Resp) (h2 : o.getResult attempt = .found r) :
    handleCacheLoop o ttl lockTTL (fuel + 1) attempt m =
      ⟨{ m with cacheHits := m.cacheHits + 1 }, [.cacheGet, .writeResponse r], none⟩ := by
  simp [handleCacheLoop, h2]

theorem loop_acquire_failure (o : CallOracle) (ttl lockTTL : Int) (fuel attempt : Nat) (m : Metrics)
    (h2 : o.getResult attempt = .missing) (h3 : o.acquireResult attempt = .failure) :
    handleCacheLoop o ttl lockTTL (fuel + 1) attempt m =
      ⟨{ m with cacheMisses := m.cacheMisses + 1,
                cacheOperationError := m.cacheOperationError + 1 },
       [.cacheGet, .tryAcquireLeader lockTTL], some .acquireFailed⟩ := by
  simp [handleCacheLoop, h2, h3]

theorem loop_acquired (o : CallOracle) (ttl lockTTL : Int) (fuel attempt : Nat) (m : Metrics)
    (h2 : o.getResult attempt = .missing) (h3 : o.acquireResult attempt = .acquired) :
    handleCacheLoop o ttl lockTTL (fuel + 1) attempt m =
      (let out := handleAsLeader o ttl
        { m with cacheMisses := m.cacheMisses + 1, leaderAcquired := m.leaderAcquired + 1 }
      ⟨out.metrics, .cacheGet :: .tryAcquireLeader lockTTL :: out.ops, out.outcome⟩) := by
  simp [handleCacheLoop, h2, h3]

theorem loop_wait_failure (o : CallOracle) (ttl lockTTL : Int) (fuel attempt : Nat) (m : Metrics)
    (h2 : o.getResult attempt = .missing) (h3 : o.acquireResult attempt = .notAcquired)
    (h4 : o.waitResult attempt = .failure) :
    handleCacheLoop o ttl lockTTL (fuel + 1) attempt m =
      ⟨{ m with cacheMisses := m.cacheMisses + 1, followerWaits := m.followerWaits + 1,
                cacheOperationError := m.cacheOperationError + 1 },
       [.cacheGet, .tryAcquireLeader lockTTL, .waitForDone lockTTL], some .waitFailed⟩ := by
  simp [handleCacheLoop, h2, h3, h4]

theorem loop_wait_completed (o : CallOracle) (ttl lockTTL : Int) (fuel attempt : Nat) (m : Metrics)
    (h2 : o.getResult attempt = .missing) (h3 : o.acquireResult attempt = .notAcquired)
    (h4 : o.waitResult attempt = .completed) :
    handleCacheLoop o ttl lockTTL (fuel + 1) attempt m =
      (let out := handleCacheLoop o ttl lockTTL fuel (attempt + 1)
        { m with cacheMisses := m.cacheMisses + 1, followerWaits := m.followerWaits + 1 }
      ⟨out.metrics,
       .cacheGet :: .tryAcquireLeader lockTTL :: .waitForDone lockTTL :: out.ops,
       out.outcome⟩) := by
  simp [handleCacheLoop, h2, h3, h4]

theorem loop_wait_timeout (o : CallOracle) (ttl lockTTL : Int) (fuel attempt : Nat) (m : Metrics)
    (h2 : o.getResult attempt = .missing) (h3 : o.acquireResult attempt = .notAcquired)
    (h4 : o.waitResult attempt = .timedOut) (h5 : o.sleepCompletes attempt = true) :
    handleCacheLoop o ttl lockTTL (fuel + 1) attempt m =
      (let out := handleCacheLoop o ttl lockTTL fuel (attempt + 1)
        { m with cacheMisses := m.cacheMisses + 1, followerWaits := m.followerWaits + 1,
                 followerTimeouts := m.followerTimeouts + 1 }
      ⟨out.metrics,
       .cacheGet :: .tryAcquireLeader lockTTL :: .waitForDone lockTTL ::
         .backoffSleep ((attempt + 1) * 10) :: out.ops,
       out.outcome⟩) := by
  simp [handleCacheLoop, h2, h3, h4, h5]

theorem loop_sleep_cancelled (o : CallOracle) (ttl lockTTL : Int) (fuel attempt : Nat) (m : Metrics)
    (h2 : o.getResult attempt = .missing) (h3 : o.acquireResult attempt = .notAcquired)
    (h4 : o.waitResult attempt = .timedOut) (h5 : o.sleepCompletes attempt = false) :
    handleCacheLoop o ttl lockTTL (fuel + 1) attempt m =
      ⟨{ m with cacheMisses := m.cacheMisses + 1, followerWaits := m.followerWaits + 1,
                followerTimeouts := m.followerTimeouts + 1 },
       [.cacheGet, .tryAcquireLeader lockTTL, .waitForDone lockTTL,
        .backoffSleep ((attempt + 1) * 10)], some .sleepCancelled⟩ := by
  simp [handleCacheLoop, h2, h3, h4, h5]



/-! ## Helper lemmas: fetch, leader path -/

theorem fetchAndWrite_metrics (o : CallOracle) (m : Metrics) :
    (fetchAndWrite o m).metrics = { m with upstreamFetches := m.upstreamFetches + 1 } := by
  unfold fetchAndWrite fetchFromUpstream
  cases o.fetchResult <;> simp

theorem fetchAndWrite_ops (o : CallOracle) (m : Metrics) :
    (fetchAndWrite o m).ops = [.leaseAcquire, .upstreamFetch, .leaseRelease] ∨
    ∃ r, o.fetchResult = .fetched r ∧
      (fetchAndWrite o m).ops = [.leaseAcquire, .upstreamFetch, .leaseRelease, .writeResponse r] := by
  unfold fetchAndWrite fetchFromUpstream
  cases hf : o.fetchResult with
  | failure => exact Or.inl rfl
  | fetched r => exact Or.inr ⟨r, rfl, rfl⟩

theorem fetchAndWrite_outcome (o : CallOracle) (m : Metrics) :
    (fetchAndWrite o m).outcome = none ∨ (fetchAndWrite o m).outcome = some .fetchFailed := by
  unfold fetchAndWrite fetchFromUpstream
  cases o.fetchResult with
  | failure => exact Or.inr rfl
  | fetched r => exact Or.inl rfl

theorem leader_metrics (o : CallOracle) (ttl : Int) (m : Metrics) :
    ((handleAsLeader o ttl m).metrics.requestsTotal = m.requestsTotal ∧
     (handleAsLeader o ttl m).metrics.cacheHits = m.cacheHits ∧
     (handleAsLeader o ttl m).metrics.cacheMisses = m.cacheMisses ∧
     (handleAsLeader o ttl m).metrics.leaderAcquired = m.leaderAcquired ∧
     (handleAsLeader o ttl m).metrics.followerWaits = m.followerWaits) ∧
    (m.cacheOperationError ≤ (handleAsLeader o ttl m).metrics.cacheOperationError ∧
     (handleAsLeader o ttl m).metrics.fallbackFetches = m.fallbackFetches) := by
  unfold handleAsLeader fetchFromUpstream
  cases o.fetchResult with
  | failure => simp
  | fetched r =>
    by_cases hc : shouldCache r.statusCode <;> by_cases hs : o.setSucceeds <;> simp [hc, hs]

theorem leader_ops_indep (o : CallOracle) (ttl : Int) (m m' : Metrics) :
    (handleAsLeader o ttl m).ops = (handleAsLeader o ttl m').ops := by
  unfold handleAsLeader fetchFromUpstream
  cases o.fetchResult with
  | failure => simp
  | fetched r =>
    by_cases hc : shouldCache r.statusCode <;> by_cases hs : o.setSucceeds <;> simp [hc, hs]

theorem leader_ops_inversion (o : CallOracle) (ttl : Int) (m : Metrics) :
    (∀ r t, Op.cacheSet r t ∈ (handleAsLeader o ttl m).ops →
        t = ttl ∧ o.fetchResult = .fetched r ∧ shouldCache r.statusCode = true) ∧
    (∀ t, Op.tryAcquireLeader t ∉ (handleAsLeader o ttl m).ops) ∧
    (∀ t, Op.waitForDone t ∉ (handleAsLeader o ttl m).ops) := by
  unfold handleAsLeader fetchFromUpstream cleanupOps
  cases hf : o.fetchResult with
  | failure => simp
  | fetched r =>
    by_cases hc : shouldCache r.statusCode <;> by_cases hs : o.setSucceeds <;>
      simp [hc, hs]

theorem leader_set_mem (o : CallOracle) (ttl : Int) (m : Metrics) (r : Resp)
    (hf : o.fetchResult = .fetched r) (hc : shouldCache r.statusCode = true) :
    Op.cacheSet r ttl ∈ (handleAsLeader o ttl m).ops := by
  unfold handleAsLeader fetchFromUpstream
  rw [hf]
  by_cases hs : o.setSucceeds <;> simp [hc, hs]

theorem leader_no_set (o : CallOracle) (ttl : Int) (m : Metrics) (r : Resp)
    (hf : o.fetchResult = .fetched r) (hc : shouldCache r.statusCode = false) :
    (∀ r' t, Op.cacheSet r' t ∉ (handleAsLeader o ttl m).ops) ∧
    (handleAsLeader o ttl m).metrics.cacheSkips5xx = m.cacheSkips5xx + 1 := by
  unfold handleAsLeader fetchFromUpstream cleanupOps
  rw [hf]
  simp [hc]

theorem leader_outcome (o : CallOracle) (ttl : Int) (m : Metrics) :
    (handleAsLeader o ttl m).outcome = none ∨
    (handleAsLeader o ttl m).outcome = some .fetchFailed := by
  unfold handleAsLeader fetchFromUpstream
  cases o.fetchResult with
  | failure => exact Or.inr rfl
  | fetched r =>
    by_cases hc : shouldCache r.statusCode <;> by_cases hs : o.setSucceeds <;> simp [hc, hs]



/-! ## Helper lemmas: the retry loop, by induction on the remaining budget -/

theorem loop_outcome_ne_unsupported (o : CallOracle) (ttl lockTTL : Int) :
    ∀ (fuel attempt : Nat) (m : Metrics),
      (handleCacheLoop o ttl lockTTL fuel attempt m).outcome ≠ some .unsupportedBehavior := by
  intro fuel
  induction fuel with
  | zero =>
    intro attempt m
    rw [loop_zero]
    rcases fetchAndWrite_outcome o { m with fallbackFetches := m.fallbackFetches + 1 } with
      h | h <;> simp [h]
  | succ fuel ih =>
    intro attempt m
    cases hg : o.getResult attempt with
    | failure => rw [loop_get_failure o ttl lockTTL fuel attempt m hg]; simp
    | found r => rw [loop_get_found o ttl lockTTL fuel attempt m r hg]; simp
    | missing =>
      cases ha : o.acquireResult attempt with
      | failure => rw [loop_acquire_failure o ttl lockTTL fuel attempt m hg ha]; simp
      | acquired =>
        rw [loop_acquired o ttl lockTTL fuel attempt m hg ha]
        simp only []
        rcases leader_outcome o ttl
          { m with cacheMisses := m.cacheMisses + 1, leaderAcquired := m.leaderAcquired + 1 } with
          h | h <;> simp [h]
      | notAcquired =>
        cases hw : o.waitResult attempt with
        | failure => rw [loop_wait_failure o ttl lockTTL fuel attempt m hg ha hw]; simp
        | completed =>
          rw [loop_wait_completed o ttl lockTTL fuel attempt m hg ha hw]
          simpa using ih (attempt + 1) _
        | timedOut =>
          cases hs : o.sleepCompletes attempt with
          | true =>
            rw [loop_wait_timeout o ttl lockTTL fuel attempt m hg ha hw hs]
            simpa using ih (attempt + 1) _
          | false =>
            rw [loop_sleep_cancelled o ttl lockTTL fuel attempt m hg ha hw hs]; simp

theorem loop_metrics_delta (o : CallOracle) (ttl lockTTL : Int) :
    ∀ (fuel attempt : Nat) (m : Metrics),
      (handleCacheLoop o ttl lockTTL fuel attempt m).metrics.requestsTotal = m.requestsTotal ∧
      (handleCacheLoop o ttl lockTTL fuel attempt m).metrics.cacheHits +
          (handleCacheLoop o ttl lockTTL fuel attempt m).metrics.cacheMisses ≤
        m.cacheHits + m.cacheMisses + fuel ∧
      (handleCacheLoop o ttl lockTTL fuel attempt m).metrics.cacheMisses +
          m.leaderAcquired + m.followerWaits + m.cacheOperationError ≤
        m.cacheMisses + (handleCacheLoop o ttl lockTTL fuel attempt m).metrics.leaderAcquired +
          (handleCacheLoop o ttl lockTTL fuel attempt m).metrics.followerWaits +
          (handleCacheLoop o ttl lockTTL fuel attempt m).metrics.cacheOperationError ∧
      m.fallbackFetches ≤
        (handleCacheLoop o ttl lockTTL fuel attempt m).metrics.fallbackFetches := by
  intro fuel
  induction fuel with
  | zero =>
    intro attempt m
    rw [loop_zero, fetchAndWrite_metrics o { m with fallbackFetches := m.fallbackFetches + 1 }]
    simp
  | succ fuel ih =>
    intro attempt m
    cases hg : o.getResult attempt with
    | failure => rw [loop_get_failure o ttl lockTTL fuel attempt m hg]; simp
    | found r => rw [loop_get_found o ttl lockTTL fuel attempt m r hg]; simp; omega
    | missing =>
      cases ha : o.acquireResult attempt with
      | failure => rw [loop_acquire_failure o ttl lockTTL fuel attempt m hg ha]; simp; omega
      | acquired =>
        rw [loop_acquired o ttl lockTTL fuel attempt m hg ha]
        simp only []
        obtain ⟨⟨e1, e2, e3, e4, e5⟩, e6, e7⟩ := leader_metrics o ttl
          { m with cacheMisses := m.cacheMisses + 1, leaderAcquired := m.leaderAcquired + 1 }
        simp at e1 e2 e3 e4 e5 e6 e7 ⊢
        omega
      | notAcquired =>
        cases hw : o.waitResult attempt with
        | failure => rw [loop_wait_failure o ttl lockTTL fuel attempt m hg ha hw]; simp; omega
        | completed =>
          rw [loop_wait_completed o ttl lockTTL fuel attempt m hg ha hw]
          simp only []
          obtain ⟨i1, i2, i3, i4⟩ := ih (attempt + 1)
            { m with cacheMisses := m.cacheMisses + 1, followerWaits := m.followerWaits + 1 }
          simp at i1 i2 i3 i4 ⊢
          omega
        | timedOut =>
          cases hs : o.sleepCompletes attempt with
          | true =>
            rw [loop_wait_timeout o ttl lockTTL fuel attempt m hg ha hw hs]
            simp only []
            obtain ⟨i1, i2, i3, i4⟩ := ih (attempt + 1)
              { m with cacheMisses := m.cacheMisses + 1, followerWaits := m.followerWaits + 1,
                       followerTimeouts := m.followerTimeouts + 1 }
            simp at i1 i2 i3 i4 ⊢
            omega
          | false =>
            rw [loop_sleep_cancelled o ttl lockTTL fuel attempt m hg ha hw hs]; simp; omega



theorem loop_ops_inversion (o : CallOracle) (ttl lockTTL : Int) :
    ∀ (fuel attempt : Nat) (m : Metrics),
      (∀ r t, Op.cacheSet r t ∈ (handleCacheLoop o ttl lockTTL fuel attempt m).ops →
          t = ttl ∧ o.fetchResult = .fetched r ∧ shouldCache r.statusCode = true) ∧
      (∀ t, Op.tryAcquireLeader t ∈ (handleCacheLoop o ttl lockTTL fuel attempt m).ops →
          t = lockTTL) ∧
      (∀ t, Op.waitForDone t ∈ (handleCacheLoop o ttl lockTTL fuel attempt m).ops →
          t = lockTTL) := by
  intro fuel
  induction fuel with
  | zero =>
    intro attempt m
    rw [loop_zero]
    rcases fetchAndWrite_ops o { m with fallbackFetches := m.fallbackFetches + 1 } with
      h | ⟨r, _, h⟩ <;> rw [h] <;> simp
  | succ fuel ih =>
    intro attempt m
    cases hg : o.getResult attempt with
    | failure => rw [loop_get_failure o ttl lockTTL fuel attempt m hg]; simp
    | found r => rw [loop_get_found o ttl lockTTL fuel attempt m r hg]; simp
    | missing =>
      cases ha : o.acquireResult attempt with
      | failure => rw [loop_acquire_failure o ttl lockTTL fuel attempt m hg ha]; simp
      | acquired =>
        rw [loop_acquired o ttl lockTTL fuel attempt m hg ha]
        simp only []
        obtain ⟨l1, l2, l3⟩ := leader_ops_inversion o ttl
          { m with cacheMisses := m.cacheMisses + 1, leaderAcquired := m.leaderAcquired + 1 }
        refine ⟨?_, ?_, ?_⟩
        · intro r t hmem
          simp only [List.mem_cons] at hmem
          rcases hmem with h | h | h
          · exact absurd h (by simp)
          · exact absurd h (by simp)
          · exact l1 r t h
        · intro t hmem
          simp only [List.mem_cons] at hmem
          rcases hmem with h | h | h
          · exact absurd h (by simp)
          · injection h
          · exact absurd h (l2 t)
        · intro t hmem
          simp only [List.mem_cons] at hmem
          rcases hmem with h | h | h
          · exact absurd h (by simp)
          · exact absurd h (by simp)
          · exact absurd h (l3 t)
      | notAcquired =>
        cases hw : o.waitResult attempt with
        | failure => rw [loop_wait_failure o ttl lockTTL fuel attempt m hg ha hw]; simp
        | completed =>
          rw [loop_wait_completed o ttl lockTTL fuel attempt m hg ha hw]
          simp only []
          obtain ⟨i1, i2, i3⟩ := ih (attempt + 1)
            { m with cacheMisses := m.cacheMisses + 1, followerWaits := m.followerWaits + 1 }
          refine ⟨?_, ?_, ?_⟩
          · intro r t hmem
            simp only [List.mem_cons] at hmem
            rcases hmem with h | h | h | h
            · exact absurd h (by simp)
            · exact absurd h (by simp)
            · exact absurd h (by simp)
            · exact i1 r t h
          · intro t hmem
            simp only [List.mem_cons] at hmem
            rcases hmem with h | h | h | h
            · exact absurd h (by simp)
            · injection h
            · exact absurd h (by simp)
            · exact i2 t h
          · intro t hmem
            simp only [List.mem_cons] at hmem
            rcases hmem with h | h | h | h
            · exact absurd h (by simp)
            · exact absurd h (by simp)
            · injection h
            · exact i3 t h
        | timedOut =>
          cases hs : o.sleepCompletes attempt with
          | true =>
            rw [loop_wait_timeout o ttl lockTTL fuel attempt m hg ha hw hs]
            simp only []
            obtain ⟨i1, i2, i3⟩ := ih (attempt + 1)
              { m with cacheMisses := m.cacheMisses + 1, followerWaits := m.followerWaits + 1,
                       followerTimeouts := m.followerTimeouts + 1 }
            refine ⟨?_, ?_, ?_⟩
            · intro r t hmem
              simp only [List.mem_cons] at hmem
              rcases hmem with h | h | h | h | h
              · exact absurd h (by simp)
              · exact absurd h (by simp)
              · exact absurd h (by simp)
              · exact absurd h (by simp)
              · exact i1 r t h
            · intro t hmem
              simp only [List.mem_cons] at hmem
              rcases hmem with h | h | h | h | h
              · exact absurd h (by simp)
              · injection h
              · exact absurd h (by simp)
              · exact absurd h (by simp)
              · exact i2 t h
            · intro t hmem
              simp only [List.mem_cons] at hmem
              rcases hmem with h | h | h | h | h
              · exact absurd h (by simp)
              · exact absurd h (by simp)
              · injection h
              · exact absurd h (by simp)
              · exact i3 t h
          | false =>
            rw [loop_sleep_cancelled o ttl lockTTL fuel attempt m hg ha hw hs]; simp

theorem loop_leader_sub (o : CallOracle) (ttl lockTTL : Int) (a : Nat)
    (hget : o.getResult a = .missing) (hacq : o.acquireResult a = .acquired)
    (hprev : ∀ b, b < a → o.getResult b = .missing ∧ o.acquireResult b = .notAcquired ∧
      (o.waitResult b = .completed ∨
        (o.waitResult b = .timedOut ∧ o.sleepCompletes b = true))) :
    ∀ (k fuel attempt : Nat), attempt + k = a → k < fuel → ∀ (m : Metrics),
      ∀ x ∈ (handleAsLeader o ttl m).ops,
        x ∈ (handleCacheLoop o ttl lockTTL fuel attempt m).ops := by
  intro k
  induction k with
  | zero =>
    intro fuel attempt hk hf m x hx
    have heq : attempt = a := by omega
    subst heq
    obtain ⟨fuel', rfl⟩ : ∃ fuel', fuel = fuel' + 1 := ⟨fuel - 1, by omega⟩
    rw [loop_acquired o ttl lockTTL fuel' attempt m hget hacq]
    simp only [List.mem_cons]
    rw [leader_ops_indep o ttl m
      { m with cacheMisses := m.cacheMisses + 1, leaderAcquired := m.leaderAcquired + 1 }] at hx
    exact Or.inr (Or.inr hx)
  | succ k ih =>
    intro fuel attempt hk hf m x hx
    have hlt : attempt < a := by omega
    obtain ⟨hg, hacq', hw⟩ := hprev attempt hlt
    obtain ⟨fuel', rfl⟩ : ∃ fuel', fuel = fuel' + 1 := ⟨fuel - 1, by omega⟩
    rcases hw with hw | ⟨hw, hs⟩
    · rw [loop_wait_completed o ttl lockTTL fuel' attempt m hg hacq' hw]
      simp only [List.mem_cons]
      rw [leader_ops_indep o ttl m
        { m with cacheMisses := m.cacheMisses + 1, followerWaits := m.followerWaits + 1 }] at hx
      exact Or.inr (Or.inr (Or.inr (ih fuel' (attempt + 1) (by omega) (by omega) _ x hx)))
    · rw [loop_wait_timeout o ttl lockTTL fuel' attempt m hg hacq' hw hs]
      simp only [List.mem_cons]
      rw [leader_ops_indep o ttl m
        { m with cacheMisses := m.cacheMisses + 1, followerWaits := m.followerWaits + 1,
                 followerTimeouts := m.followerTimeouts + 1 }] at hx
      exact Or.inr (Or.inr (Or.inr (Or.inr (ih fuel' (attempt + 1) (by omega) (by omega) _ x hx))))



/-! ## Helper lemmas: `Handle` dispatch -/

theorem handle_passthrough (svc : ServiceModel) (path : String) (o : CallOracle) (m : Metrics)
    (hp : (svc.config.endpoint path).cacheBehavior = cacheBehaviorPassthrough) :
    handle svc path o m = fetchAndWrite o { m with requestsTotal := m.requestsTotal + 1 } := by
  simp [handle, hp]

theorem handle_cache_behavior (svc : ServiceModel) (path : String) (o : CallOracle) (m : Metrics)
    (hp : (svc.config.endpoint path).cacheBehavior = cacheBehaviorCache) :
    handle svc path o m =
      handleCache svc o (svc.config.endpoint path)
        { m with requestsTotal := m.requestsTotal + 1 } := by
  simp [handle, hp, cacheBehaviorCache, cacheBehaviorPassthrough]

theorem handle_unsupported (svc : ServiceModel) (path : String) (o : CallOracle) (m : Metrics)
    (h1 : (svc.config.endpoint path).cacheBehavior ≠ cacheBehaviorPassthrough)
    (h2 : (svc.config.endpoint path).cacheBehavior ≠ cacheBehaviorCache) :
    handle svc path o m =
      ⟨{ m with requestsTotal := m.requestsTotal + 1 }, [], some .unsupportedBehavior⟩ := by
  simp [handle, h1, h2]

theorem handleCache_no_store (svc : ServiceModel) (o : CallOracle) (e : EndpointConfig)
    (m : Metrics) (h : svc.hasStore = false) :
    handleCache svc o e m = ⟨m, [], some .missingStore⟩ := by
  simp [handleCache, h]

theorem handleCache_store (svc : ServiceModel) (o : CallOracle) (e : EndpointConfig)
    (m : Metrics) (h : svc.hasStore = true) :
    handleCache svc o e m =
      handleCacheLoop o e.cacheTTL (leaderLockTTL e.cacheTTL) maxCacheAttempts 0 m := by
  simp [handleCache, h]

theorem handle_ops_inversion (svc : ServiceModel) (path : String) (o : CallOracle) (m : Metrics) :
    (∀ r t, Op.cacheSet r t ∈ (handle svc path o m).ops →
        t = (svc.config.endpoint path).cacheTTL ∧ o.fetchResult = .fetched r ∧
          shouldCache r.statusCode = true) ∧
    (∀ t, Op.tryAcquireLeader t ∈ (handle svc path o m).ops →
        t = leaderLockTTL (svc.config.endpoint path).cacheTTL) ∧
    (∀ t, Op.waitForDone t ∈ (handle svc path o m).ops →
        t = leaderLockTTL (svc.config.endpoint path).cacheTTL) := by
  by_cases hp : (svc.config.endpoint path).cacheBehavior = cacheBehaviorPassthrough
  · rw [handle_passthrough svc path o m hp]
    rcases fetchAndWrite_ops o { m with requestsTotal := m.requestsTotal + 1 } with
      h | ⟨r, _, h⟩ <;> rw [h] <;> simp
  · by_cases hc : (svc.config.endpoint path).cacheBehavior = cacheBehaviorCache
    · rw [handle_cache_behavior svc path o m hc]
      cases hs : svc.hasStore with
      | false => rw [handleCache_no_store svc o _ _ hs]; simp
      | true =>
        rw [handleCache_store svc o _ _ hs]
        exact loop_ops_inversion o _ _ maxCacheAttempts 0 _
    · rw [handle_unsupported svc path o m hp hc]; simp

theorem handle_metrics_delta (svc : ServiceModel) (path : String) (o : CallOracle) (m : Metrics) :
    (handle svc path o m).metrics.requestsTotal = m.requestsTotal + 1 ∧
    (handle svc path o m).metrics.cacheHits + (handle svc path o m).metrics.cacheMisses ≤
      m.cacheHits + m.cacheMisses + maxCacheAttempts ∧
    (handle svc path o m).metrics.cacheMisses +
        m.leaderAcquired + m.followerWaits + m.cacheOperationError ≤
      m.cacheMisses + (handle svc path o m).metrics.leaderAcquired +
        (handle svc path o m).metrics.followerWaits +
        (handle svc path o m).metrics.cacheOperationError ∧
    m.fallbackFetches ≤ (handle svc path o m).metrics.fallbackFetches := by
  by_cases hp : (svc.config.endpoint path).cacheBehavior = cacheBehaviorPassthrough
  · rw [handle_passthrough svc path o m hp,
        fetchAndWrite_metrics o { m with requestsTotal := m.requestsTotal + 1 }]
    simp
  · by_cases hc : (svc.config.endpoint path).cacheBehavior = cacheBehaviorCache
    · rw [handle_cache_behavior svc path o m hc]
      cases hs : svc.hasStore with
      | false => rw [handleCache_no_store svc o _ _ hs]; simp
      | true =>
        rw [handleCache_store svc o _ _ hs]
        obtain ⟨d1, d2, d3, d4⟩ := loop_metrics_delta o (svc.config.endpoint path).cacheTTL
          (leaderLockTTL (svc.config.endpoint path).cacheTTL) maxCacheAttempts 0
          { m with requestsTotal := m.requestsTotal + 1 }
        simp at d1 d2 d3 d4 ⊢
        omega
    · rw [handle_unsupported svc path o m hp hc]; simp

theorem runCalls_inv (svc : ServiceModel) :
    ∀ (calls : List (String × CallOracle)) (m : Metrics),
      m.cacheHits + m.cacheMisses ≤ maxCacheAttempts * m.requestsTotal →
      m.cacheMisses ≤ m.leaderAcquired + m.followerWaits + m.cacheOperationError +
        m.fallbackFetches →
      (runCalls svc calls m).cacheHits + (runCalls svc calls m).cacheMisses ≤
          maxCacheAttempts * (runCalls svc calls m).requestsTotal ∧
        (runCalls svc calls m).cacheMisses ≤ (runCalls svc calls m).leaderAcquired +
          (runCalls svc calls m).followerWaits + (runCalls svc calls m).cacheOperationError +
          (runCalls svc calls m).fallbackFetches := by
  intro calls
  induction calls with
  | nil => intro m h1 h2; exact ⟨h1, h2⟩
  | cons c rest ih =>
    obtain ⟨p, o⟩ := c
    intro m h1 h2
    obtain ⟨d1, d2, d3, d4⟩ := handle_metrics_delta svc p o m
    have hM : maxCacheAttempts = 3 := rfl
    rw [runCalls]
    refine ih (handle svc p o m).metrics ?_ ?_
    · rw [hM] at h1 ⊢
      omega
    · omega

theorem c2_cex_eval :
    (runCalls svcCache [("/a", oracleFollowerTimeout)] Metrics.zero).requestsTotal = 1 ∧
    (runCalls svcCache [("/a", oracleFollowerTimeout)] Metrics.zero).cacheHits = 0 ∧
    (runCalls svcCache [("/a", oracleFollowerTimeout)] Metrics.zero).cacheMisses = 3 := by
  decide

theorem c2_cex_eval3 :
    (runCalls svcCache
      [("/a", oracleFollowerTimeout), ("/a", oracleAcquireFailure), ("/a", oracleAcquireFailure)]
      Metrics.zero).cacheMisses = 5 ∧
    (runCalls svcCache
      [("/a", oracleFollowerTimeout), ("/a", oracleAcquireFailure), ("/a", oracleAcquireFailure)]
      Metrics.zero).leaderAcquired = 0 ∧
    (runCalls svcCache
      [("/a", oracleFollowerTimeout), ("/a", oracleAcquireFailure), ("/a", oracleAcquireFailure)]
      Metrics.zero).followerWaits = 3 ∧
    (runCalls svcCache
      [("/a", oracleFollowerTimeout), ("/a", oracleAcquireFailure), ("/a", oracleAcquireFailure)]
      Metrics.zero).fallbackFetches = 1 := by
  decide



theorem mergeSortStr_eq_of_perm {l₁ l₂ : List String} (h : l₁.Perm l₂) :
    l₁.mergeSort (fun a b => decide (a ≤ b)) = l₂.mergeSort (fun a b => decide (a ≤ b)) :=
  List.eq_of_perm_of_sorted
    ((List.mergeSort_perm l₁ _).trans (h.trans (List.mergeSort_perm l₂ _).symm))
    (List.sorted_mergeSort' l₁) (List.sorted_mergeSort' l₂)

theorem queryKeys_perm {q₁ q₂ : Query} (h : q₁.Perm q₂) :
    (queryKeys q₁).Perm (queryKeys q₂) :=
  (h.map Prod.fst).dedup

theorem queryValuesOf_perm {q₁ q₂ : Query} (h : q₁.Perm q₂) (k : String) :
    (queryValuesOf q₁ k).Perm (queryValuesOf q₂ k) :=
  h.filterMap _

theorem flatMap_congr {α β : Type} {f g : α → List β} :
    ∀ {l : List α}, (∀ a ∈ l, f a = g a) → l.flatMap f = l.flatMap g := by
  intro l
  induction l with
  | nil => intro _; rfl
  | cons x xs ih =>
    intro hfg
    simp only [List.flatMap_cons]
    rw [hfg x (List.mem_cons_self x xs), ih (fun a ha => hfg a (List.mem_cons_of_mem x ha))]

theorem normalizeQuery_perm {q₁ q₂ : Query} (h : q₁.Perm q₂) :
    normalizeQuery q₁ = normalizeQuery q₂ := by
  unfold normalizeQuery
  have hlen : q₁.length = q₂.length := h.length_eq
  have hempty : q₁.isEmpty = q₂.isEmpty := by
    cases q₁ <;> cases q₂ <;> simp_all
  rw [hempty]
  by_cases he : q₂.isEmpty
  · rw [he]; simp
  · rw [eq_false_of_ne_true he]
    simp only [Bool.false_eq_true, if_false]
    rw [mergeSortStr_eq_of_perm (queryKeys_perm h)]
    congr 1
    apply flatMap_congr
    intro k _
    rw [mergeSortStr_eq_of_perm (queryValuesOf_perm h k)]



/-- C4: the fingerprint `keybuilder.Build` returns is unchanged under
any permutation of the arrival order of the query parameters when
`ignoreParameters` is false (normalization sorts keys and values), and
unchanged under any change of the parameter values when
`ignoreParameters` is true (the query is not hashed at all). -/
theorem c4_fingerprint_invariance (path : String) (q₁ q₂ q₃ q₄ : Query)
    (hperm : q₁.Perm q₂) (hkeys : q₃.map Prod.fst = q₄.map Prod.fst) :
    build (some ⟨path, q₁⟩) ⟨false⟩ = build (some ⟨path, q₂⟩) ⟨false⟩ ∧
    build (some ⟨path, q₃⟩) ⟨true⟩ = build (some ⟨path, q₄⟩) ⟨true⟩ := by
  constructor
  · show sha256Hex (keyString ⟨path, q₁⟩ ⟨false⟩) = sha256Hex (keyString ⟨path, q₂⟩ ⟨false⟩)
    unfold keyString
    rw [normalizeQuery_perm hperm]
  · rfl

theorem c4_fingerprint_invariance_witness :
    ([("b", "2"), ("a", "1")] : Query).Perm [("a", "1"), ("b", "2")] ∧
    ([("a", "1")] : Query).map Prod.fst = ([("a", "99")] : Query).map Prod.fst ∧
    build (some ⟨"/articles", [("b", "2"), ("a", "1")]⟩) ⟨false⟩ =
      build (some ⟨"/articles", [("a", "1"), ("b", "2")]⟩) ⟨false⟩ := by
  refine ⟨by decide, by decide, ?_⟩
  exact (c4_fingerprint_invariance "/articles" [("b", "2"), ("a", "1")] [("a", "1"), ("b", "2")]
    [("a", "1")] [("a", "99")] (by decide) (by decide)).1


namespace SingleFlight

/-- The inductive invariant of the healthy protocol: a handler inside
the leader region holds the lock (hence at most one is in the region); a
handler before its fetch has fetched nothing; nobody ever fetches
twice. -/
def Inv (s : HState) : Prop :=
  (∀ i, inLeaderRegion (s.pc i) = true → s.lockHolder = some i) ∧
  (∀ i, preFetch (s.pc i) = true → s.fetches i = 0) ∧
  (∀ i, s.fetches i ≤ 1)

theorem init_inv : Inv init := by
  refine ⟨fun i h => ?_, fun i h => rfl, fun i => by simp [init]⟩
  simp [init, inLeaderRegion] at h

/-- Helper: the invariant is preserved when only handler `i`'s program
counter changes, its new value is outside the leader region, and it is a
pre-fetch state only if the handler had not fetched. -/
theorem inv_update_pc (s : HState) (i : Nat) (p : PC)
    (h : Inv s) (hreg : inLeaderRegion p = false)
    (hpre : preFetch p = true → s.fetches i = 0) :
    Inv { s with pc := Function.update s.pc i p } := by
  obtain ⟨h1, h2, h3⟩ := h
  refine ⟨fun j hj => ?_, fun j hj => ?_, h3⟩
  · simp only [Function.update_apply] at hj
    by_cases hj' : j = i
    · rw [if_pos hj'] at hj
      rw [hreg] at hj
      cases hj
    · rw [if_neg hj'] at hj
      exact h1 j hj
  · simp only [Function.update_apply] at hj
    by_cases hj' : j = i
    · rw [if_pos hj'] at hj
      subst hj'
      exact hpre hj
    · rw [if_neg hj'] at hj
      exact h2 j hj

theorem step_inv (fetchOk : Nat → Bool) (s : HState) (i : Nat) (h : Inv s) :
    Inv (step fetchOk s i) := by
  have hcopy := h
  obtain ⟨h1, h2, h3⟩ := h
  unfold step
  cases hpc : s.pc i with
  | atGet a =>
    by_cases hc : s.cached
    · simp only [hc, if_true]
      exact inv_update_pc s i .finished hcopy rfl (fun hp => by cases hp)
    · simp only [hc, if_false]
      exact inv_update_pc s i (.atAcquire a) hcopy rfl
        (fun _ => h2 i (by rw [hpc]; rfl))
  | atAcquire a =>
    cases hl : s.lockHolder with
    | none =>
      simp only []
      refine ⟨fun j hj => ?_, fun j hj => ?_, h3⟩
      · simp only [Function.update_apply] at hj
        by_cases hj' : j = i
        · simp [hj']
        · rw [if_neg hj'] at hj
          exact absurd (h1 j hj) (by simp [hl])
      · simp only [Function.update_apply] at hj
        by_cases hj' : j = i
        · subst hj'
          exact h2 j (by rw [hpc]; rfl)
        · rw [if_neg hj'] at hj
          exact h2 j hj
    | some k =>
      simp only []
      rw [← hl]
      exact inv_update_pc s i (.waiting a s.doneEpoch) hcopy rfl
        (fun _ => h2 i (by rw [hpc]; rfl))
  | leaderFetch =>
    have hzero : s.fetches i = 0 := h2 i (by rw [hpc]; rfl)
    have hlock : s.lockHolder = some i := h1 i (by rw [hpc]; rfl)
    have hfet : ∀ j, preFetch (Function.update s.pc i (if fetchOk i then PC.leaderSet
        else PC.leaderPublish) j) = true →
        Function.update s.fetches i (s.fetches i + 1) j = 0 := by
      intro j hj
      simp only [Function.update_apply] at hj ⊢
      by_cases hj' : j = i
      · rw [if_pos hj'] at hj
        rcases hb : fetchOk i with _ | _ <;> rw [hb] at hj <;> cases hj
      · rw [if_neg hj'] at hj ⊢
        exact h2 j hj
    have hreg : ∀ j, inLeaderRegion (Function.update s.pc i (if fetchOk i then PC.leaderSet
        else PC.leaderPublish) j) = true → s.lockHolder = some j := by
      intro j hj
      simp only [Function.update_apply] at hj
      by_cases hj' : j = i
      · rw [hj', hlock]
      · rw [if_neg hj'] at hj
        exact h1 j hj
    have hbound : ∀ j, Function.update s.fetches i (s.fetches i + 1) j ≤ 1 := by
      intro j
      simp only [Function.update_apply]
      by_cases hj' : j = i
      · rw [if_pos hj', hzero]
      · rw [if_neg hj']
        exact h3 j
    by_cases hok : fetchOk i <;> simp only [hok, if_true, if_false] <;>
      refine ⟨fun j hj => ?_, fun j hj => ?_, fun j => ?_⟩
    · exact hreg j (by simpa [hok] using hj)
    · exact hfet j (by simpa [hok] using hj)
    · exact hbound j
    · exact hreg j (by simpa [hok] using hj)
    · exact hfet j (by simpa [hok] using hj)
    · exact hbound j
  | leaderSet =>
    have hlock : s.lockHolder = some i := h1 i (by rw [hpc]; rfl)
    refine ⟨fun j hj => ?_, fun j hj => ?_, h3⟩
    · simp only [Function.update_apply] at hj
      by_cases hj' : j = i
      · rw [hj', hlock]
      · rw [if_neg hj'] at hj
        exact h1 j hj
    · simp only [Function.update_apply] at hj
      by_cases hj' : j = i
      · rw [if_pos hj'] at hj
        cases hj
      · rw [if_neg hj'] at hj
        exact h2 j hj
  | leaderPublish =>
    have hlock : s.lockHolder = some i := h1 i (by rw [hpc]; rfl)
    refine ⟨fun j hj => ?_, fun j hj => ?_, h3⟩
    · simp only [Function.update_apply] at hj
      by_cases hj' : j = i
      · rw [hj', hlock]
      · rw [if_neg hj'] at hj
        exact h1 j hj
    · simp only [Function.update_apply] at hj
      by_cases hj' : j = i
      · rw [if_pos hj'] at hj
        cases hj
      · rw [if_neg hj'] at hj
        exact h2 j hj
  | leaderRelease =>
    have hlock : s.lockHolder = some i := h1 i (by rw [hpc]; rfl)
    refine ⟨fun j hj => ?_, fun j hj => ?_, h3⟩
    · simp only [Function.update_apply] at hj
      by_cases hj' : j = i
      · rw [if_pos hj'] at hj
        cases hj
      · rw [if_neg hj'] at hj
        have hcontra := h1 j hj
        rw [hlock] at hcontra
        exact absurd (Option.some.inj hcontra).symm hj'
    · simp only [Function.update_apply] at hj
      by_cases hj' : j = i
      · rw [if_pos hj'] at hj
        cases hj
      · rw [if_neg hj'] at hj
        exact h2 j hj
  | waiting a e =>
    by_cases hblk : e < s.doneEpoch
    · simp only [hblk, if_true]
      by_cases ha : a + 1 < maxCacheAttempts
      · simp only [ha, if_true]
        exact inv_update_pc s i (.atGet (a + 1)) hcopy rfl
          (fun _ => h2 i (by rw [hpc]; rfl))
      · simp only [ha, if_false]
        exact inv_update_pc s i .fallbackFetch hcopy rfl
          (fun _ => h2 i (by rw [hpc]; rfl))
    · simp only [hblk, if_false]
      exact hcopy
  | fallbackFetch =>
    have hzero : s.fetches i = 0 := h2 i (by rw [hpc]; rfl)
    refine ⟨fun j hj => ?_, fun j hj => ?_, fun j => ?_⟩
    · simp only [Function.update_apply] at hj
      by_cases hj' : j = i
      · rw [if_pos hj'] at hj
        cases hj
      · rw [if_neg hj'] at hj
        exact h1 j hj
    · simp only [Function.update_apply] at hj ⊢
      by_cases hj' : j = i
      · rw [if_pos hj'] at hj
        cases hj
      · rw [if_neg hj'] at hj ⊢
        exact h2 j hj
    · simp only [Function.update_apply]
      by_cases hj' : j = i
      · rw [if_pos hj', hzero]
      · rw [if_neg hj']
        exact h3 j
  | finished => exact hcopy

theorem foldl_inv (fetchOk : Nat → Bool) :
    ∀ (sched : List Nat) (s : HState), Inv s → Inv (sched.foldl (step fetchOk) s) := by
  intro sched
  induction sched with
  | nil => intro s hs; exact hs
  | cons x xs ih => intro s hs; exact ih (step fetchOk s x) (step_inv fetchOk s x hs)

theorem run_inv (fetchOk : Nat → Bool) (sched : List Nat) : Inv (run fetchOk sched) :=
  foldl_inv fetchOk sched init init_inv

end SingleFlight

/-! ## Helper lemmas: configuration validation -/


theorem lookup_mem {α β : Type} [BEq α] [LawfulBEq α] :
    ∀ {l : List (α × β)} {k : α} {v : β}, l.lookup k = some v → (k, v) ∈ l := by
  intro l
  induction l with
  | nil => intro k v h; simp [List.lookup] at h
  | cons p rest ih =>
    intro k v h
    rw [List.lookup] at h
    cases hk : k == p.1 with
    | true =>
      rw [hk] at h
      simp only [Option.some.injEq] at h
      have hkeq : k = p.1 := by simpa using hk
      subst hkeq h
      exact List.mem_cons_self _ _
    | false =>
      rw [hk] at h
      exact List.mem_cons_of_mem _ (ih h)

theorem validate_parts (c : Config) (h : c.validate = true) :
    ∃ dft, c.endpoints.lookup defaultEndpointKey = some dft ∧
      validateEndpoint dft true = true ∧
      ∀ kv ∈ c.endpoints, kv.1 = defaultEndpointKey ∨ validateEndpoint kv.2 false = true := by
  unfold Config.validate at h
  split_ifs at h
  rcases hd : c.endpoints.lookup defaultEndpointKey with _ | dft
  · rw [hd] at h; simp at h
  · rw [hd] at h
    simp only [Bool.and_eq_true, List.all_eq_true] at h
    obtain ⟨hv, hall⟩ := h
    refine ⟨dft, rfl, hv, fun kv hkv => ?_⟩
    have hkv' := hall kv hkv
    by_cases hdft : kv.1 = defaultEndpointKey
    · exact Or.inl hdft
    · right
      rw [if_neg hdft] at hkv'
      split_ifs at hkv'
      exact hkv'

theorem validateEndpoint_behavior (e : EndpointConfig) (req : Bool)
    (h : validateEndpoint e req = true) :
    e.cacheBehavior = "" ∨ e.cacheBehavior = cacheBehaviorCache ∨
      e.cacheBehavior = cacheBehaviorPassthrough := by
  unfold validateEndpoint at h
  split_ifs at h with h1 h2
  · exact Or.inr (of_decide_eq_true h)
  · exact Or.inl (by simpa using h2)


theorem validateEndpoint_required (e : EndpointConfig)
    (h : validateEndpoint e true = true) :
    e.cacheBehavior = cacheBehaviorCache ∨ e.cacheBehavior = cacheBehaviorPassthrough := by
  unfold validateEndpoint at h
  split_ifs at h with h1 h2
  · exact of_decide_eq_true h
  · exact absurd h (by simp)

theorem endpoint_behavior_valid (c : Config) (path : String) (h : c.validate = true) :
    (c.endpoint path).cacheBehavior = cacheBehaviorCache ∨
    (c.endpoint path).cacheBehavior = cacheBehaviorPassthrough := by
  obtain ⟨dft, hd, hv, hall⟩ := validate_parts c h
  have hdftb := validateEndpoint_required dft hv
  rcases ho : c.endpoints.lookup path with _ | ov
  · simp only [Config.endpoint, hd, ho, Option.getD_some]
    exact hdftb
  · have hmem := lookup_mem ho
    have hov := hall (path, ov) hmem
    rcases hov with hkey | hval
    · have hkey' : path = defaultEndpointKey := hkey
      have hovd : ov = dft := by
        rw [hkey'] at ho
        rw [ho] at hd
        exact Option.some.inj hd
      subst hovd
      simp only [Config.endpoint, hd, ho, Option.getD_some]
      rcases hdftb with hb | hb <;> rw [hb] <;>
        simp [cacheBehaviorCache, cacheBehaviorPassthrough]
    · rcases validateEndpoint_behavior ov false hval with he | hb
      · simp only [Config.endpoint, hd, ho, Option.getD_some, he]
        simpa using hdftb
      · simp only [Config.endpoint, hd, ho, Option.getD_some]
        rcases hb with hb | hb <;> rw [hb] <;>
          simp [cacheBehaviorCache, cacheBehaviorPassthrough]

/-! ## Claim theorems -/

/-- C1, counterexample: the claim "for every set of concurrently handled
requests with identical fingerprint within one cache TTL, with a healthy
coordination store, Handle performs at most one upstream fetch in total"
is false: on `c1Schedule`, handler 1's cache read lands before leader
0's store and its lock attempt lands after leader 0's release, so both
handlers fetch even though the store is healthy and every response is
cacheable. -/
theorem c1_counterexample :
    ¬ (∀ (fetchOk : Nat → Bool) (sched : List Nat) (i j : Nat),
        1 ≤ (SingleFlight.run fetchOk sched).fetches i →
        1 ≤ (SingleFlight.run fetchOk sched).fetches j → i = j) := by
  intro hclaim
  exact absurd (hclaim (fun _ => true) c1Schedule 0 1 (by decide) (by decide)) (by decide)

/-- C1, amended: with a healthy coordination store, at most one handler
is inside the leader region (holding the lock, with its upstream build
in flight) at any time, and every handler performs at most one upstream
fetch for its request — so the total is bounded by the number of
requests, not by one. -/
theorem c1_single_flight_amended (fetchOk : Nat → Bool) (sched : List Nat) :
    (∀ i j, SingleFlight.inLeaderRegion ((SingleFlight.run fetchOk sched).pc i) = true →
        SingleFlight.inLeaderRegion ((SingleFlight.run fetchOk sched).pc j) = true → i = j) ∧
    (∀ i, (SingleFlight.run fetchOk sched).fetches i ≤ 1) := by
  obtain ⟨h1, _, h3⟩ := SingleFlight.run_inv fetchOk sched
  refine ⟨fun i j hi hj => ?_, h3⟩
  have hii := h1 i hi
  have hjj := h1 j hj
  rw [hii] at hjj
  exact Option.some.inj hjj

theorem c1_single_flight_amended_witness :
    SingleFlight.inLeaderRegion ((SingleFlight.run (fun _ => true) [0, 0]).pc 0) = true ∧
    (0 : Nat) = 0 :=
  ⟨by decide,
   (c1_single_flight_amended (fun _ => true) [0, 0]).1 0 0 (by decide) (by decide)⟩

/-- C2, counterexample: after one `Handle` call in which every attempt
misses, acquisition fails and the wait times out (three misses, then a
fallback), `cache_hits_total + cache_misses_total = 3 > 1 =
requests_total`; and after two further calls that miss once and then
fail on `TryAcquireLeader`, `leader_acquired_total +
follower_waits_total = 3 < 4 = cache_misses_total −
fallback_fetches_total`.  Both inequalities of the claim fail. -/
theorem c2_counterexample :
    ¬ ((runCalls svcCache [("/a", oracleFollowerTimeout)] Metrics.zero).cacheHits +
        (runCalls svcCache [("/a", oracleFollowerTimeout)] Metrics.zero).cacheMisses ≤
        (runCalls svcCache [("/a", oracleFollowerTimeout)] Metrics.zero).requestsTotal) ∧
    ¬ ((runCalls svcCache
          [("/a", oracleFollowerTimeout), ("/a", oracleAcquireFailure),
           ("/a", oracleAcquireFailure)] Metrics.zero).leaderAcquired +
        (runCalls svcCache
          [("/a", oracleFollowerTimeout), ("/a", oracleAcquireFailure),
           ("/a", oracleAcquireFailure)] Metrics.zero).followerWaits ≥
        (runCalls svcCache
          [("/a", oracleFollowerTimeout), ("/a", oracleAcquireFailure),
           ("/a", oracleAcquireFailure)] Metrics.zero).cacheMisses -
        (runCalls svcCache
          [("/a", oracleFollowerTimeout), ("/a", oracleAcquireFailure),
           ("/a", oracleAcquireFailure)] Metrics.zero).fallbackFetches) := by
  constructor <;> decide

/-- C2, amended: after any sequence of completed `Handle` calls,
`cache_hits_total + cache_misses_total ≤ maxCacheAttempts ·
requests_total` (each call runs up to three read attempts), and
`leader_acquired_total + follower_waits_total + cache_errors_total ≥
cache_misses_total − fallback_fetches_total` (a miss whose
`TryAcquireLeader` errors is balanced by the error counter). -/
theorem c2_metrics_amended (svc : ServiceModel) (calls : List (String × CallOracle)) :
    (runCalls svc calls Metrics.zero).cacheHits +
        (runCalls svc calls Metrics.zero).cacheMisses ≤
      maxCacheAttempts * (runCalls svc calls Metrics.zero).requestsTotal ∧
    (runCalls svc calls Metrics.zero).leaderAcquired +
        (runCalls svc calls Metrics.zero).followerWaits +
        (runCalls svc calls Metrics.zero).cacheOperationError ≥
      (runCalls svc calls Metrics.zero).cacheMisses -
        (runCalls svc calls Metrics.zero).fallbackFetches := by
  obtain ⟨h1, h2⟩ := runCalls_inv svc calls Metrics.zero (by decide) (by decide)
  exact ⟨h1, by omega⟩

/-- C3: in every leader execution, a fetched response with status `≥
500` is never written to the cache store — no `Set` call appears in the
leader's trace, nor anywhere in the whole `Handle` call — and
`cache_skips_5xx_total` is incremented instead; a response with status
`< 500` is stored, and when the leader branch is reached inside
`Handle`, the `Set` carries the resolved endpoint's cache TTL. -/
theorem c3_leader_store_policy (svc : ServiceModel) (path : String) (o : CallOracle)
    (ttl : Int) (m m₀ : Metrics) (r : Resp) (a : Nat)
    (hf : o.fetchResult = .fetched r) :
    ((500 : Int) ≤ r.statusCode →
        (∀ r' t, Op.cacheSet r' t ∉ (handleAsLeader o ttl m).ops) ∧
        (handleAsLeader o ttl m).metrics.cacheSkips5xx = m.cacheSkips5xx + 1 ∧
        (∀ r' t, Op.cacheSet r' t ∉ (handle svc path o m₀).ops)) ∧
    (r.statusCode < 500 → Op.cacheSet r ttl ∈ (handleAsLeader o ttl m).ops) ∧
    (r.statusCode < 500 → reachesLeaderAt o a → a < maxCacheAttempts →
      (svc.config.endpoint path).cacheBehavior = cacheBehaviorCache → svc.hasStore = true →
      Op.cacheSet r (svc.config.endpoint path).cacheTTL ∈ (handle svc path o m₀).ops) := by
  refine ⟨fun h5 => ?_, fun h5 => ?_, fun h5 hr ha hb hs => ?_⟩
  · have hc : shouldCache r.statusCode = false := by simp [shouldCache]; omega
    obtain ⟨hn, hk⟩ := leader_no_set o ttl m r hf hc
    refine ⟨hn, hk, fun r' t hmem => ?_⟩
    obtain ⟨hinv, _, _⟩ := handle_ops_inversion svc path o m₀
    obtain ⟨_, hfr, hsc⟩ := hinv r' t hmem
    rw [hf] at hfr
    injection hfr with he
    rw [← he, hc] at hsc
    cases hsc
  · exact leader_set_mem o ttl m r hf (by simp [shouldCache]; exact h5)
  · obtain ⟨hget, hacq, hprev⟩ := hr
    rw [handle_cache_behavior svc path o m₀ hb, handleCache_store svc o _ _ hs]
    exact loop_leader_sub o (svc.config.endpoint path).cacheTTL
      (leaderLockTTL (svc.config.endpoint path).cacheTTL) a hget hacq hprev
      a maxCacheAttempts 0 (by omega) ha _ _
      (leader_set_mem o _ _ r hf (by simp [shouldCache]; exact h5))

theorem c3_leader_store_policy_witness :
    oracleLeaderAtOne.fetchResult = .fetched respOk ∧
    respOk.statusCode < 500 ∧
    reachesLeaderAt oracleLeaderAtOne 1 ∧
    1 < maxCacheAttempts ∧
    (svcCache.config.endpoint "/a").cacheBehavior = cacheBehaviorCache ∧
    svcCache.hasStore = true ∧
    Op.cacheSet respOk (svcCache.config.endpoint "/a").cacheTTL ∈
      (handle svcCache "/a" oracleLeaderAtOne Metrics.zero).ops :=
  ⟨rfl, by decide, by decide, by decide, by decide, rfl,
   (c3_leader_store_policy svcCache "/a" oracleLeaderAtOne 0 Metrics.zero Metrics.zero
      respOk 1 rfl).2.2 (by decide) (by decide) (by decide) (by decide) rfl⟩

/-- C5: the leader lock TTL is exactly the clamp of the endpoint cache
TTL to `[defaultLeaderLockTTL, maxLeaderLockTTL]` as the claim words it,
and every `TryAcquireLeader` performed by `Handle` carries
`leaderLockTTL` of the resolved endpoint's cache TTL. -/
theorem c5_lock_ttl_clamp :
    (∀ t : Int, leaderLockTTL t = lockTTLSpec t) ∧
    (∀ (svc : ServiceModel) (path : String) (o : CallOracle) (m : Metrics) (t : Int),
      Op.tryAcquireLeader t ∈ (handle svc path o m).ops →
        t = leaderLockTTL (svc.config.endpoint path).cacheTTL) := by
  constructor
  · intro t
    unfold leaderLockTTL lockTTLSpec defaultLeaderLockTTL maxLeaderLockTTL
    split_ifs <;> omega
  · intro svc path o m t hmem
    exact (handle_ops_inversion svc path o m).2.1 t hmem

theorem c5_lock_ttl_clamp_witness :
    Op.tryAcquireLeader (leaderLockTTL (svcCache.config.endpoint "/a").cacheTTL) ∈
      (handle svcCache "/a" oracleFollowerTimeout Metrics.zero).ops ∧
    leaderLockTTL (svcCache.config.endpoint "/a").cacheTTL =
      leaderLockTTL (svcCache.config.endpoint "/a").cacheTTL :=
  ⟨by decide,
   c5_lock_ttl_clamp.2 svcCache "/a" oracleFollowerTimeout Metrics.zero _ (by decide)⟩

/-- C6: the code violates the claim — `Validate` accepts a configuration
whose `DEFAULT` endpoint is CACHE with `expireTimeout = 0`, although the
repository's own tests (`TestValidateRequiresPositiveTTLWhenCachingDefault`,
`TestValidateRequiresPositiveResolvedTTLForOverride`) and the spec
require it to be rejected at load time: `validateEndpoint` only checks
`expireTimeout < 0`. -/
theorem c6_validate_accepts_zero_ttl_cache :
    cfgCacheZeroTTL.validate = true ∧
    (cfgCacheZeroTTL.endpoint "/any").cacheBehavior = cacheBehaviorCache ∧
    (cfgCacheZeroTTL.endpoint "/any").expireTimeout = 0 := by
  decide

/-- C7, counterexample: the claimed equivalence "`Ready` succeeds iff no
endpoint resolves to CACHE or the store's ping succeeds" is false: with
a PASSTHROUGH-only configuration and a configured store whose ping
fails, no endpoint uses CACHE yet `Ready` fails and the endpoint returns
503, because `Ready` pings any attached store unconditionally. -/
theorem c7_counterexample :
    ¬ (∀ (svc : ServiceModel) (pingOk : Bool),
        handleReady svc pingOk = (200, "ready") ↔
          (svc.config.usesCache = false ∨ (svc.hasStore = true ∧ pingOk = true))) := by
  intro h
  exact absurd ((h svcPassthroughWithStore false).mpr (Or.inl (by decide))) (by decide)

/-- C7, amended: the ready endpoint returns `200` with body `ready` iff
(caching is configured → a store is attached) and (a store is attached →
its ping succeeds within the handler's 2-second deadline); in
particular, a configured store is pinged even when no endpoint uses
CACHE, and a failing ping then yields `503`. -/
theorem c7_ready_iff_amended (svc : ServiceModel) (pingOk : Bool) :
    handleReady svc pingOk = (200, "ready") ↔
      ((svc.config.usesCache = true → svc.hasStore = true) ∧
       (svc.hasStore = true → pingOk = true)) := by
  unfold handleReady ready
  cases hc : svc.config.usesCache <;> cases hs : svc.hasStore <;> cases pingOk <;> simp

/-- C8: on every exit of the leader path — fetch error, failed `Set`,
5xx skip, or success — `handleAsLeader` performs exactly one
`PublishDone` and exactly one `ReleaseLeader`, both under a fresh
2-second context independent of the inbound request context, and they
are the final two operations of the leader's trace. -/
theorem c8_leader_cleanup (o : CallOracle) (ttl : Int) (m : Metrics) :
    ((handleAsLeader o ttl m).ops.countP (fun op => op.isPublishDone) = 1) ∧
    ((handleAsLeader o ttl m).ops.countP (fun op => op.isReleaseLeader) = 1) ∧
    (∀ c, Op.publishDone c ∈ (handleAsLeader o ttl m).ops → c = .freshTimeout 2) ∧
    (∀ c, Op.releaseLeader c ∈ (handleAsLeader o ttl m).ops → c = .freshTimeout 2) ∧
    (handleAsLeader o ttl m).ops.drop ((handleAsLeader o ttl m).ops.length - 2) =
      cleanupOps := by
  unfold handleAsLeader fetchFromUpstream
  cases o.fetchResult with
  | failure =>
    simp [cleanupOps, Op.isPublishDone, Op.isReleaseLeader, List.countP, List.countP.go]
  | fetched r =>
    by_cases hc : shouldCache r.statusCode <;> by_cases hs : o.setSucceeds <;>
      simp [hc, hs, cleanupOps, Op.isPublishDone, Op.isReleaseLeader, List.countP,
        List.countP.go]

theorem c8_leader_cleanup_witness :
    Op.publishDone (.freshTimeout 2) ∈
      (handleAsLeader oracleLeaderOk 5000000000 Metrics.zero).ops ∧
    (CtxKind.freshTimeout 2) = .freshTimeout 2 :=
  ⟨by decide,
   (c8_leader_cleanup oracleLeaderOk 5000000000 Metrics.zero).2.2.1 _ (by decide)⟩

/-- C9: a request whose resolved endpoint behavior is PASSTHROUGH
touches the coordination store in no way: its trace holds no store
operation (no get, set, tryAcquireLeader, releaseLeader, publishDone or
waitForDone), the metrics change only by one request and one upstream
fetch, and the trace is exactly lease acquire, upstream fetch, lease
release, and (on success) the response write. -/
theorem c9_passthrough_frame (svc : ServiceModel) (path : String) (o : CallOracle)
    (m : Metrics)
    (h : (svc.config.endpoint path).cacheBehavior = cacheBehaviorPassthrough) :
    (∀ op ∈ (handle svc path o m).ops, op.isStoreOp = false) ∧
    (handle svc path o m).metrics =
      { m with requestsTotal := m.requestsTotal + 1,
               upstreamFetches := m.upstreamFetches + 1 } ∧
    (∀ r, o.fetchResult = .fetched r →
      (handle svc path o m).ops =
        [.leaseAcquire, .upstreamFetch, .leaseRelease, .writeResponse r]) ∧
    (o.fetchResult = .failure →
      (handle svc path o m).ops = [.leaseAcquire, .upstreamFetch, .leaseRelease]) := by
  rw [handle_passthrough svc path o m h]
  unfold fetchAndWrite fetchFromUpstream
  cases hf : o.fetchResult with
  | failure => simp [Op.isStoreOp]
  | fetched r => simp [Op.isStoreOp]

theorem c9_passthrough_frame_witness :
    (svcPassthroughWithStore.config.endpoint "/page").cacheBehavior =
      cacheBehaviorPassthrough ∧
    (∀ op ∈ (handle svcPassthroughWithStore "/page" oracleLeaderOk Metrics.zero).ops,
      op.isStoreOp = false) :=
  ⟨by decide,
   (c9_passthrough_frame svcPassthroughWithStore "/page" oracleLeaderOk Metrics.zero
      (by decide)).1⟩

/-- C10: under any configuration accepted by `Validate`, every path
resolves to CACHE or PASSTHROUGH, so the "unsupported cache behavior"
branch of `Handle` is unreachable: no call returns that error. -/
theorem c10_validated_behavior (c : Config) (path : String) (h : c.validate = true) :
    ((c.endpoint path).cacheBehavior = cacheBehaviorCache ∨
     (c.endpoint path).cacheBehavior = cacheBehaviorPassthrough) ∧
    (∀ (hs : Bool) (o : CallOracle) (m : Metrics),
      (handle ⟨c, hs⟩ path o m).outcome ≠ some .unsupportedBehavior) := by
  have hb := endpoint_behavior_valid c path h
  refine ⟨hb, fun hs o m => ?_⟩
  rcases hb with hb | hb
  · rw [handle_cache_behavior ⟨c, hs⟩ path o m hb]
    cases hstore : hs with
    | false => rw [handleCache_no_store _ _ _ _ rfl]; simp
    | true =>
      rw [handleCache_store _ _ _ _ rfl]
      exact loop_outcome_ne_unsupported o _ _ maxCacheAttempts 0 _
  · rw [handle_passthrough ⟨c, hs⟩ path o m hb]
    rcases fetchAndWrite_outcome o
      { m with requestsTotal := m.requestsTotal + 1 } with hout | hout <;> simp [hout]

theorem c10_validated_behavior_witness :
    cfgCache.validate = true ∧
    ((cfgCache.endpoint "/x").cacheBehavior = cacheBehaviorCache ∨
     (cfgCache.endpoint "/x").cacheBehavior = cacheBehaviorPassthrough) :=
  ⟨by decide, (c10_validated_behavior cfgCache "/x" (by decide)).1⟩


end Doorman
